import Mathlib

/-!
Verification development for the Summit repository (GitHub dashboard with
chat and code-quality analytics). Client components are embedded shallowly:
React state updates become explicit state-passing functions, JSON response
shapes become inductive types, and numeric scores are modelled as rationals.
The FastAPI backend itself is not among the source files (only its tests,
README and callers are); where a claim depends on it, the behaviour is
modelled from the specification and marked as such.
-/

namespace Summit

/-! ## Analytics panel (components/analytics-panel.tsx)

Data shapes of the `/api/analyze` response consumed by `AnalyticsPanel`:
`CodeQualityResponse.file_analyses` is a record from file path to
`FileAnalysis`, whose `chunks` is a record from chunk name to
`ChunkAnalysis`. JavaScript records are modelled as association lists,
`Object.keys` as mapping `Prod.fst`, `Object.values` as mapping `Prod.snd`.
Numeric scores (floats in TS) are modelled as rationals. -/

/-- JavaScript `s.split(sep)` for a one-character separator, on the
character list of the string. An empty input yields `[[]]`, like JS
`"".split(sep) = [""]`; trailing separators yield trailing empty segments. -/
def splitChar (sep : Char) : List Char → List (List Char)
  | [] => [[]]
  | c :: cs =>
      match splitChar sep cs, decide (c = sep) with
      | r, true => [] :: r
      | [], false => [[c]]
      | r :: rs, false => (c :: r) :: rs

/-- JavaScript `String.prototype.trim`: leading and trailing whitespace
removed (modelled with `Char.isWhitespace`, i.e. space, tab, CR, LF — JS
also strips a few rarer Unicode space characters). -/
def jsTrim (s : String) : String :=
  ⟨((s.data.dropWhile Char.isWhitespace).reverse.dropWhile Char.isWhitespace).reverse⟩

/-- One chunk of `FileAnalysis.chunks` (fields not used by the analytics
computations are omitted). -/
structure ChunkAnalysis where
  quality_score : Rat
deriving Repr, DecidableEq

/-- One entry of `CodeQualityResponse.file_analyses`. -/
structure FileAnalysis where
  lint_score : Rat
  chunks : List (String × ChunkAnalysis)
deriving Repr, DecidableEq

/-- `getLetterGrade` from analytics-panel.tsx: first matching threshold wins. -/
def getLetterGrade (score : Rat) : String :=
  if score ≥ 9.5 then "A+"
  else if score ≥ 9.0 then "A"
  else if score ≥ 8.5 then "A-"
  else if score ≥ 8.0 then "B+"
  else if score ≥ 7.5 then "B"
  else if score ≥ 7.0 then "B-"
  else if score ≥ 6.5 then "C+"
  else if score ≥ 6.0 then "C"
  else if score ≥ 5.5 then "C-"
  else if score ≥ 5.0 then "D+"
  else if score ≥ 4.0 then "D"
  else "F"


/-- Rank of a letter grade, A+ highest, for stating that `getLetterGrade`
is monotone (a higher score never yields a lower grade). -/
def gradeRank : String → Nat
  | "F" => 0
  | "D" => 1
  | "D+" => 2
  | "C-" => 3
  | "C" => 4
  | "C+" => 5
  | "B-" => 6
  | "B" => 7
  | "B+" => 8
  | "A-" => 9
  | "A" => 10
  | "A+" => 11
  | _ => 0

/-- JavaScript `path.split(".").pop()?.toLowerCase()`: `split` always
yields at least one segment, so `pop` is the last segment. -/
def fileExt (path : String) : String :=
  ⟨((splitChar '.' path.data).getLastD []).map Char.toLower⟩

/-- The language bucket a file path falls into, mirroring the `if/else if`
chain of `calculateLanguageDistribution`. -/
inductive Lang where
  | python
  | javascript
  | typescript
  | other
deriving Repr, DecidableEq

/-- The bucket assignment of `calculateLanguageDistribution`'s `forEach`. -/
def langOf (path : String) : Lang :=
  let ext := fileExt path
  if ext = "py" then .python
  else if ext = "js" then .javascript
  else if ext = "ts" ∨ ext = "tsx" then .typescript
  else .other

/-- JavaScript `Math.round((count / total) * 100)` for natural `count` and
positive `total`: round-half-up of the rational `100 * count / total`.
(For `total = 0` the code never reaches this expression.) -/
def roundPct (count total : Nat) : Nat :=
  (200 * count + total) / (2 * total)

/-- An entry of the list returned by `calculateLanguageDistribution`
(name, color swatch, file count, rounded percentage). -/
structure LangStat where
  name : String
  color : String
  count : Nat
  percentage : Nat
deriving Repr, DecidableEq

/-- `calculateLanguageDistribution` from analytics-panel.tsx. The `forEach`
over `Object.keys(fileAnalyses)` incrementing one counter per path is
expressed as one `countP` per bucket; the `total === 0` early return maps
every language to percentage 0. -/
def calculateLanguageDistribution (fileAnalyses : List (String × FileAnalysis)) :
    List LangStat :=
  let paths := fileAnalyses.map Prod.fst
  let pyCount := paths.countP (fun p => langOf p == .python)
  let jsCount := paths.countP (fun p => langOf p == .javascript)
  let tsCount := paths.countP (fun p => langOf p == .typescript)
  let otherCount := paths.countP (fun p => langOf p == .other)
  let total := fileAnalyses.length
  if total = 0 then
    [⟨"Python", "#3572A5", pyCount, 0⟩,
     ⟨"JavaScript", "#f1e05a", jsCount, 0⟩,
     ⟨"TypeScript", "#2b7489", tsCount, 0⟩,
     ⟨"Other", "#8e8e8e", otherCount, 0⟩]
  else
    [⟨"Python", "#3572A5", pyCount, roundPct pyCount total⟩,
     ⟨"JavaScript", "#f1e05a", jsCount, roundPct jsCount total⟩,
     ⟨"TypeScript", "#2b7489", tsCount, roundPct tsCount total⟩,
     ⟨"Other", "#8e8e8e", otherCount, roundPct otherCount total⟩]

/-- The severity bucket of one chunk in `calculateIssuesBySeverity`:
`quality_score < 5` is Critical, `< 7` Major, `< 9` Minor, and a chunk
scoring 9 or more increments no counter. -/
def severityOf (qualityScore : Rat) : Option (Fin 3) :=
  if qualityScore < 5 then some 0
  else if qualityScore < 7 then some 1
  else if qualityScore < 9 then some 2
  else none

/-- An entry of the list returned by `calculateIssuesBySeverity`. -/
structure IssueStat where
  name : String
  color : String
  count : Nat
  percentage : Nat
deriving Repr, DecidableEq

/-- All chunks of all files, in the nested `Object.values` iteration order
of `calculateIssuesBySeverity`. -/
def allChunks (fileAnalyses : List (String × FileAnalysis)) : List ChunkAnalysis :=
  (fileAnalyses.map (fun fa => fa.2.chunks.map Prod.snd)).flatten

/-- `calculateIssuesBySeverity` from analytics-panel.tsx. When the summed
count is 0 the initial array (counts 0, percentages 0) is returned as is. -/
def calculateIssuesBySeverity (fileAnalyses : List (String × FileAnalysis)) :
    List IssueStat :=
  let chunks := allChunks fileAnalyses
  let critical := chunks.countP (fun c => severityOf c.quality_score == some 0)
  let major := chunks.countP (fun c => severityOf c.quality_score == some 1)
  let minor := chunks.countP (fun c => severityOf c.quality_score == some 2)
  let total := critical + major + minor
  if total = 0 then
    [⟨"Critical", "#ef4444", critical, 0⟩,
     ⟨"Major", "#f97316", major, 0⟩,
     ⟨"Minor", "#eab308", minor, 0⟩]
  else
    [⟨"Critical", "#ef4444", critical, roundPct critical total⟩,
     ⟨"Major", "#f97316", major, roundPct major total⟩,
     ⟨"Minor", "#eab308", minor, roundPct minor total⟩]

/-! ## Repository sidebar (components/repository-sidebar.tsx)

Two revisions of this component are present in the sources. Both define a
`fetchRepositories` that GETs `/api/repositories`; the first sends the
GitHub token as `Authorization: Bearer <token>` and accepts only the
`{repositories: [...]}` response shape, the second sends it as a custom
`GitHub-Token` header and accepts a bare array as well. -/

/-- A repository object as it arrives in the JSON response (the TS
`Repository` interface: `branches` and `lastActive` are optional). -/
structure RepoInput where
  full_name : String
  owner : String
  name : String
  branches : Option (List String)
  lastActive : Option String
deriving Repr, DecidableEq

/-- A repository as stored in the component state after normalization
(defaults filled in). -/
structure Repository where
  full_name : String
  owner : String
  name : String
  branches : List String
  lastActive : String
deriving Repr, DecidableEq

/-- The JSON value returned by `GET /api/repositories`, as far as the
client inspects it: `Array.isArray(data)` distinguishes a bare array, and
`data.repositories && Array.isArray(data.repositories)` looks up the
`repositories` member of an object. Array elements are modelled directly
as `RepoInput` records (the TS code accesses their fields untyped).
Property access on a non-object is modelled as yielding `undefined`; in
JavaScript this holds for every primitive except `null`, where the access
itself throws — that path too is caught by the surrounding `catch` and
also leaves the repository list empty. -/
inductive ReposJson where
  | repoArray (repos : List RepoInput)
  | obj (fields : List (String × ReposJson))
  | str (s : String)
  | num (n : Int)
  | boolean (b : Bool)
  | null
deriving Repr

/-- Member lookup `data.repositories` on a JSON object. -/
def ReposJson.getField (fields : List (String × ReposJson)) (key : String) :
    Option ReposJson :=
  (fields.find? (fun f => f.1 == key)).map Prod.snd

/-- The element mapping of the bare-array branch of the second
`fetchRepositories`: owner is recomputed as `full_name.split('/')[0]`,
missing `branches` becomes `["main"]`, missing `lastActive` becomes
`"Recently updated"`. -/
def formatRepoBare (r : RepoInput) : Repository :=
  { full_name := r.full_name
    owner := ⟨(splitChar '/' r.full_name.data).headD []⟩
    name := r.name
    branches := r.branches.getD ["main"]
    lastActive := r.lastActive.getD "Recently updated" }

/-- The element mapping of the `{repositories: [...]}` branch (both
revisions): spread of the input record with the same two defaults. -/
def formatRepoWrapped (r : RepoInput) : Repository :=
  { full_name := r.full_name
    owner := r.owner
    name := r.name
    branches := r.branches.getD ["main"]
    lastActive := r.lastActive.getD "Recently updated" }

/-- The response handling of the second revision's `fetchRepositories`
(the one using the `GitHub-Token` header): a bare array is formatted with
`formatRepoBare`, an object whose `repositories` member is an array with
`formatRepoWrapped`, and anything else throws `"Invalid response format"`. -/
def fetchRepositoriesParse : ReposJson → Except String (List Repository)
  | .repoArray rs => .ok (rs.map formatRepoBare)
  | .obj fields =>
      match ReposJson.getField fields "repositories" with
      | some (.repoArray rs) => .ok (rs.map formatRepoWrapped)
      | _ => .error "Invalid response format"
  | _ => .error "Invalid response format"

/-- The component's `repositories` state after `fetchRepositories` runs on
a given response body: the parsed list on success, and `[]` when the
`catch` block runs (`setRepositories([])`). -/
def repositoriesAfterFetch (data : ReposJson) : List Repository :=
  match fetchRepositoriesParse data with
  | .ok rs => rs
  | .error _ => []

/-- Headers sent by the first revision's `fetchRepositories` call site. -/
def fetchRepositoriesHeadersV1 (githubToken : String) : List (String × String) :=
  [("Content-Type", "application/json"),
   ("Authorization", "Bearer " ++ githubToken)]

/-- Headers sent by the second revision's `fetchRepositories` call site. -/
def fetchRepositoriesHeadersV2 (githubToken : String) : List (String × String) :=
  [("Content-Type", "application/json"),
   ("GitHub-Token", githubToken)]

/-- Header lookup, for stating what a request transports. -/
def headerValue (headers : List (String × String)) (key : String) : Option String :=
  (headers.find? (fun h => h.1 == key)).map Prod.snd

/-! ## Chat interface (components/chat-interface.tsx)

`ChatInterface` holds React state `messages`, `input`, `isLoading` and
`conversationId`; `handleSendMessage` validates the input, appends the
user message, POSTs `/api/chat`, and on success or failure appends an
assistant-role message. The async handler is embedded as one state
transition parameterised by the fetch outcome; `Date.now()` is an explicit
`now : Nat` parameter. JavaScript truthiness of an optional string
(`null`/`undefined`/`""` are falsy) is `strTruthy`. -/

/-- The `role` field of the TS `Message` interface. -/
inductive Role where
  | user
  | assistant
deriving Repr, DecidableEq

/-- The TS `Message` interface. Timestamps are naturals; the `id` field,
`Date.now().toString()` in the source (and the fixed string `"welcome"`
for the welcome message, modelled as id 0), is kept as the underlying
number — it is only used as a React list key. -/
structure Message where
  id : Nat
  role : Role
  content : String
  timestamp : Nat
deriving Repr, DecidableEq

/-- JavaScript truthiness of a `string | null | undefined` value. -/
def strTruthy : Option String → Bool
  | some s => s ≠ ""
  | none => false

/-- The component state touched by `handleSendMessage`. -/
structure ChatState where
  messages : List Message
  input : String
  isLoading : Bool
  conversationId : Option String
deriving Repr, DecidableEq

/-- The body of the POST `/api/chat` request built by `handleSendMessage`:
the question is the untrimmed input, `messages` is the prior message list
(role/content pairs, captured before the user message is appended), and
`conversation_id` is the stored id. -/
structure ChatRequest where
  question : String
  repository : String
  history : List (Role × String)
  conversation_id : Option String
deriving Repr, DecidableEq

/-- Outcome of the `fetch` call: a parsed JSON body with optional
`response` and `conversation_id` fields, or any thrown error (non-ok
status, network failure, malformed body). -/
inductive FetchOutcome where
  | success (response : Option String) (conversation_id : Option String)
  | failure
deriving Repr, DecidableEq

/-- Fallback content when `data.response` is falsy. -/
def chatFallbackText : String :=
  "Sorry, I couldn't analyze that. Please try again."

/-- Content of the assistant-role message appended by the `catch` block. -/
def chatErrorText : String :=
  "Sorry, there was an error processing your request. Please try again later."

/-- `handleSendMessage` from chat-interface.tsx as a state transition.
Returns the new state and the request sent, `none` when the handler
returned before fetching (empty trimmed input, no selected repository, or
no GitHub token). -/
def handleSendMessage (selectedRepo githubToken : Option String)
    (st : ChatState) (outcome : FetchOutcome) (now : Nat) :
    ChatState × Option ChatRequest :=
  if jsTrim st.input = "" then (st, none)
  else if ¬ strTruthy selectedRepo then (st, none)
  else if ¬ strTruthy githubToken then (st, none)
  else
    let repo := selectedRepo.getD ""
    let userMessage : Message :=
      { id := now, role := .user, content := st.input, timestamp := now }
    let request : ChatRequest :=
      { question := st.input
        repository := repo
        history := st.messages.map (fun m => (m.role, m.content))
        conversation_id := st.conversationId }
    match outcome with
    | .success resp cid =>
        let assistantMessage : Message :=
          { id := now + 1, role := .assistant
            content := if strTruthy resp then resp.getD "" else chatFallbackText
            timestamp := now }
        ({ messages := st.messages ++ [userMessage, assistantMessage]
           input := ""
           isLoading := false
           conversationId := if strTruthy cid then cid else st.conversationId },
         some request)
    | .failure =>
        let errorMessage : Message :=
          { id := now + 1, role := .assistant
            content := chatErrorText, timestamp := now }
        ({ messages := st.messages ++ [userMessage, errorMessage]
           input := ""
           isLoading := false
           conversationId := st.conversationId },
         some request)

/-- The welcome message installed by the `useEffect` on `selectedRepo`. -/
def welcomeMessage (repo : String) (now : Nat) : Message :=
  { id := 0, role := .assistant
    content := "Welcome to the " ++ repo ++ " repository chat! I will focus on analyzing the existing files and structure within this repository. How can I assist you today?"
    timestamp := now }

/-- The chat interface state including in-flight work: the selected
repository prop, the React state the component holds, and the chat
requests whose `fetch` has not yet resolved. `handleSendMessage` is an
async function — its synchronous prefix (validation, user-message append,
request dispatch) runs in one React task and the `await`ed response
handling runs later — so the embedding splits the two into separate
events and keeps dispatched requests pending in between. -/
structure AsyncUiState where
  selectedRepo : Option String
  chat : ChatState
  pending : List ChatRequest
deriving Repr, DecidableEq

/-- Initial `useState` values of `ChatInterface`, no request in flight. -/
def initialAsyncUiState : AsyncUiState :=
  { selectedRepo := none
    chat := { messages := [], input := "", isLoading := false, conversationId := none }
    pending := [] }

/-- What a run logs about the `/api/chat` traffic: a `requested` entry
when a request is dispatched (the repository it names and the
`conversation_id` it carries), and an `issued` entry when a response with
a truthy `conversation_id` is processed (the repository the answered
request named and the id the component stored). -/
inductive ChatLogEntry where
  | requested (repository : String) (sentConversationId : Option String)
  | issued (repository : String) (conversationId : String)
deriving Repr, DecidableEq

/-- An externally observable event of the component: a change of the
`selectedRepo` prop, the user submitting `input` while holding a token
(the synchronous prefix of `handleSendMessage`), or the response of the
`i`-th in-flight request arriving (the continuation of
`handleSendMessage` after its `await`). -/
inductive AsyncUiEvent where
  | selectRepo (repo : Option String) (now : Nat)
  | sendRequest (input : String) (githubToken : Option String) (now : Nat)
  | respond (i : Nat) (outcome : FetchOutcome) (now : Nat)
deriving Repr

/-- One step of the component. `selectRepo` with an unchanged prop leaves
the state alone (the effect has `[selectedRepo]` as dependency array);
with a changed prop the effect resets `messages` and clears
`conversationId`, while in-flight requests stay in flight. `sendRequest`
runs `handleSendMessage` up to its `fetch`: the guards, the user-message
append, clearing the input, setting loading, and dispatching the request
built from the current state. `respond` delivers the `i`-th pending
request's outcome and runs the rest of the handler on the then-current
state: the functional `setMessages` append, `setIsLoading(false)` and — on
a truthy `data.conversation_id` — `setConversationId`, which stores the
id without re-checking the selected repository. -/
def asyncUiStep (st : AsyncUiState) : AsyncUiEvent → AsyncUiState × Option ChatLogEntry
  | .selectRepo repo now =>
      if repo = st.selectedRepo then (st, none)
      else
        match repo with
        | some r =>
            ({ selectedRepo := some r
               chat := { messages := [welcomeMessage r now]
                         input := st.chat.input
                         isLoading := st.chat.isLoading
                         conversationId := none }
               pending := st.pending }, none)
        | none =>
            ({ selectedRepo := none
               chat := { messages := []
                         input := st.chat.input
                         isLoading := st.chat.isLoading
                         conversationId := none }
               pending := st.pending }, none)
  | .sendRequest input githubToken now =>
      if jsTrim input = "" then (st, none)
      else if ¬ strTruthy st.selectedRepo then (st, none)
      else if ¬ strTruthy githubToken then (st, none)
      else
        let repo := st.selectedRepo.getD ""
        let userMessage : Message :=
          { id := now, role := .user, content := input, timestamp := now }
        let request : ChatRequest :=
          { question := input
            repository := repo
            history := st.chat.messages.map (fun m => (m.role, m.content))
            conversation_id := st.chat.conversationId }
        ({ selectedRepo := st.selectedRepo
           chat := { messages := st.chat.messages ++ [userMessage]
                     input := ""
                     isLoading := true
                     conversationId := st.chat.conversationId }
           pending := st.pending ++ [request] },
         some (.requested repo st.chat.conversationId))
  | .respond i outcome now =>
      match st.pending.get? i with
      | none => (st, none)
      | some req =>
          match outcome with
          | .success resp cid =>
              let assistantMessage : Message :=
                { id := now + 1, role := .assistant
                  content := if strTruthy resp then resp.getD "" else chatFallbackText
                  timestamp := now }
              ({ selectedRepo := st.selectedRepo
                 chat := { messages := st.chat.messages ++ [assistantMessage]
                           input := st.chat.input
                           isLoading := false
                           conversationId :=
                             if strTruthy cid then cid else st.chat.conversationId }
                 pending := st.pending.eraseIdx i },
               if strTruthy cid
               then cid.map (fun c => ChatLogEntry.issued req.repository c)
               else none)
          | .failure =>
              let errorMessage : Message :=
                { id := now + 1, role := .assistant, content := chatErrorText,
                  timestamp := now }
              ({ selectedRepo := st.selectedRepo
                 chat := { messages := st.chat.messages ++ [errorMessage]
                           input := st.chat.input
                           isLoading := false
                           conversationId := st.chat.conversationId }
                 pending := st.pending.eraseIdx i },
               none)

/-- Run a sequence of events from a state, collecting the log. -/
def asyncUiRunFrom (st : AsyncUiState) :
    List AsyncUiEvent → AsyncUiState × List ChatLogEntry
  | [] => (st, [])
  | e :: es =>
      let step := asyncUiStep st e
      let rest := asyncUiRunFrom step.1 es
      (rest.1, step.2.toList ++ rest.2)

/-- Run a sequence of events from the initial component state. -/
def asyncUiRun (events : List AsyncUiEvent) : AsyncUiState × List ChatLogEntry :=
  asyncUiRunFrom initialAsyncUiState events

/-- Whether every response in a run is processed while the repository its
request named is still the selected one, i.e. the run switches repository
only when no request whose response will still be consumed is in flight. -/
def safeRun : AsyncUiState → List AsyncUiEvent → Bool
  | _, [] => true
  | st, e :: es =>
      (match e with
       | .respond i _ _ =>
           match st.pending.get? i with
           | some req => st.selectedRepo == some req.repository
           | none => true
       | _ => true) && safeRun (asyncUiStep st e).1 es

/-! ## Backend (modelled from the spec)

The FastAPI application (`summit-app/backend/app.py`) is not among the
source files; only its README, deployment scripts and curl-based tests
are. The Conversation Store, Chat Orchestrator and `/api/health` endpoint
below are therefore modelled from the specification (§4.1, §4.2, §6, §8). -/

/-- Modelled from the spec: a stored conversation of §3 — the backend's
Conversation Store record (`id`, `repository`, ordered `messages`). The
store's fresh ids are modelled as consecutive naturals. -/
structure Conversation where
  id : Nat
  repository : String
  messages : List (Role × String)
deriving Repr, DecidableEq

/-- Modelled from the spec: the Conversation Store of §4.1 — a
process-lifetime mapping from conversation id to conversation, plus the
id generator. `create` issues `nextId` and increments it, which realises
"generates a fresh unique id". -/
structure ConvStore where
  nextId : Nat
  convs : List Conversation
deriving Repr, DecidableEq

/-- The store at process start. -/
def ConvStore.initial : ConvStore := { nextId := 0, convs := [] }

/-- Modelled from the spec: `create(repository)` of §4.1. -/
def ConvStore.create (store : ConvStore) (repository : String) :
    ConvStore × Nat :=
  ({ nextId := store.nextId + 1
     convs := store.convs ++ [{ id := store.nextId, repository := repository, messages := [] }] },
   store.nextId)

/-- Lookup of a conversation id in the store. -/
def ConvStore.get (store : ConvStore) (cid : Nat) : Option Conversation :=
  store.convs.find? (fun c => c.id == cid)

/-- Append a message to the conversation with the given id. -/
def ConvStore.append (store : ConvStore) (cid : Nat) (msg : Role × String) :
    ConvStore :=
  { store with
    convs := store.convs.map (fun c =>
      if c.id = cid then { c with messages := c.messages ++ [msg] } else c) }

/-- Error taxonomy of §7, restricted to what the `chat` contract emits. -/
inductive ChatError where
  | validation
  | agentFailure
deriving Repr, DecidableEq

/-- Input of one `POST /api/chat` call, with the agent's behaviour on
this call supplied as an oracle (`some answer` on success, `none` on
timeout/error/malformed response). -/
structure ChatInput where
  question : String
  repository : String
  conversationId : Option Nat
  agentAnswer : Option String
deriving Repr, DecidableEq

/-- Modelled from the spec: step 1 of the §4.2 contract — a supplied id
that resolves in the store is reused, any other case creates a fresh
conversation for the repository. -/
def resolveConversation (store : ConvStore) (repository : String)
    (conversationId : Option Nat) : ConvStore × Nat :=
  match conversationId with
  | some cid =>
      match store.get cid with
      | some _ => (store, cid)
      | none => store.create repository
  | none => store.create repository

/-- Modelled from the spec: the Chat Orchestrator contract of §4.2. Empty
questions are rejected before touching the store; a supplied id that
resolves is reused, otherwise a fresh conversation is created; the user
message is appended; on agent success the assistant message is appended
and `(answer, conversationId)` returned; on agent failure no assistant
message is appended and an error is returned. -/
def chatOrchestrate (store : ConvStore) (input : ChatInput) :
    ConvStore × Except ChatError (String × Nat) :=
  if input.question = "" then (store, .error .validation)
  else
    let resolved := resolveConversation store input.repository input.conversationId
    let store1 := resolved.1.append resolved.2 (.user, input.question)
    match input.agentAnswer with
    | some answer =>
        (store1.append resolved.2 (.assistant, answer), .ok (answer, resolved.2))
    | none => (store1, .error .agentFailure)

/-- Run a sequence of `chat` calls from a store, collecting each call's
returned conversation id (`none` when the call returned an error). -/
def runChatCalls (store : ConvStore) : List ChatInput → ConvStore × List (Option Nat)
  | [] => (store, [])
  | input :: rest =>
      let step := chatOrchestrate store input
      let tail := runChatCalls step.1 rest
      (tail.1,
       (match step.2 with
        | .ok r => some r.2
        | .error _ => none) :: tail.2)

/-- Modelled from the spec: the `GET /api/health` row of the §6 interface
table (also exercised by the deployed-API test script, which expects
status 200 and a JSON body whose `status` key is `"healthy"`). The
endpoint takes whatever token header the caller did or did not send and
ignores it. -/
def handleHealth (_githubToken : Option String) : Nat × List (String × String) :=
  (200, [("status", "healthy")])


/-- The racing trace: ask a question about `octo/alpha`, switch to
`octo/beta` while the request is in flight (the effect clears
`conversationId`), let the `octo/alpha` response arrive and store its id
`"c-A"`, then ask about `octo/beta`. -/
def raceEvents : List AsyncUiEvent :=
  [.selectRepo (some "octo/alpha") 0,
   .sendRequest "first question" (some "ghp_token") 1,
   .selectRepo (some "octo/beta") 2,
   .respond 0 (.success (some "answer about alpha") (some "c-A")) 3,
   .sendRequest "second question" (some "ghp_token") 4]

/-- A serialized trace: each response arrives before the repository
changes or another request is sent; the follow-up request carries the id
the first response issued. -/
def safeDemoEvents : List AsyncUiEvent :=
  [.selectRepo (some "octo/demo") 0,
   .sendRequest "hello" (some "ghp_token") 1,
   .respond 0 (.success (some "hi there") (some "c1")) 2,
   .sendRequest "and the tests?" (some "ghp_token") 3]


/-- A sample prefix of chat calls and one further call, both made without a
conversation id, for witnessing id freshness. -/
def demoChatPre : List ChatInput :=
  [{ question := "What is this repo about?", repository := "octo/demo",
     conversationId := none, agentAnswer := some "A demo repository." }]

/-- The follow-up call of the freshness witness. -/
def demoChatX : ChatInput :=
  { question := "Anything else?", repository := "octo/demo",
    conversationId := none, agentAnswer := some "No." }

/-! ## Theorems -/

lemma gradeVal_APlus (score : Rat) (ha : 9.5 ≤ score) :
    getLetterGrade score = "A+" := by
  unfold getLetterGrade
  rw [if_pos ha]

lemma gradeVal_A (score : Rat) (ha : 9.0 ≤ score) (hb : score < 9.5) :
    getLetterGrade score = "A" := by
  unfold getLetterGrade
  rw [if_neg (not_le.mpr hb),
    if_pos ha]

lemma gradeVal_AMinus (score : Rat) (ha : 8.5 ≤ score) (hb : score < 9.0) :
    getLetterGrade score = "A-" := by
  unfold getLetterGrade
  rw [if_neg (not_le.mpr (by linarith)),
    if_neg (not_le.mpr hb),
    if_pos ha]

lemma gradeVal_BPlus (score : Rat) (ha : 8.0 ≤ score) (hb : score < 8.5) :
    getLetterGrade score = "B+" := by
  unfold getLetterGrade
  rw [if_neg (not_le.mpr (by linarith)),
    if_neg (not_le.mpr (by linarith)),
    if_neg (not_le.mpr hb),
    if_pos ha]

lemma gradeVal_B (score : Rat) (ha : 7.5 ≤ score) (hb : score < 8.0) :
    getLetterGrade score = "B" := by
  unfold getLetterGrade
  rw [if_neg (not_le.mpr (by linarith)),
    if_neg (not_le.mpr (by linarith)),
    if_neg (not_le.mpr (by linarith)),
    if_neg (not_le.mpr hb),
    if_pos ha]

lemma gradeVal_BMinus (score : Rat) (ha : 7.0 ≤ score) (hb : score < 7.5) :
    getLetterGrade score = "B-" := by
  unfold getLetterGrade
  rw [if_neg (not_le.mpr (by linarith)),
    if_neg (not_le.mpr (by linarith)),
    if_neg (not_le.mpr (by linarith)),
    if_neg (not_le.mpr (by linarith)),
    if_neg (not_le.mpr hb),
    if_pos ha]

lemma gradeVal_CPlus (score : Rat) (ha : 6.5 ≤ score) (hb : score < 7.0) :
    getLetterGrade score = "C+" := by
  unfold getLetterGrade
  rw [if_neg (not_le.mpr (by linarith)),
    if_neg (not_le.mpr (by linarith)),
    if_neg (not_le.mpr (by linarith)),
    if_neg (not_le.mpr (by linarith)),
    if_neg (not_le.mpr (by linarith)),
    if_neg (not_le.mpr hb),
    if_pos ha]

lemma gradeVal_C (score : Rat) (ha : 6.0 ≤ score) (hb : score < 6.5) :
    getLetterGrade score = "C" := by
  unfold getLetterGrade
  rw [if_neg (not_le.mpr (by linarith)),
    if_neg (not_le.mpr (by linarith)),
    if_neg (not_le.mpr (by linarith)),
    if_neg (not_le.mpr (by linarith)),
    if_neg (not_le.mpr (by linarith)),
    if_neg (not_le.mpr (by linarith)),
    if_neg (not_le.mpr hb),
    if_pos ha]

lemma gradeVal_CMinus (score : Rat) (ha : 5.5 ≤ score) (hb : score < 6.0) :
    getLetterGrade score = "C-" := by
  unfold getLetterGrade
  rw [if_neg (not_le.mpr (by linarith)),
    if_neg (not_le.mpr (by linarith)),
    if_neg (not_le.mpr (by linarith)),
    if_neg (not_le.mpr (by linarith)),
    if_neg (not_le.mpr (by linarith)),
    if_neg (not_le.mpr (by linarith)),
    if_neg (not_le.mpr (by linarith)),
    if_neg (not_le.mpr hb),
    if_pos ha]

lemma gradeVal_DPlus (score : Rat) (ha : 5.0 ≤ score) (hb : score < 5.5) :
    getLetterGrade score = "D+" := by
  unfold getLetterGrade
  rw [if_neg (not_le.mpr (by linarith)),
    if_neg (not_le.mpr (by linarith)),
    if_neg (not_le.mpr (by linarith)),
    if_neg (not_le.mpr (by linarith)),
    if_neg (not_le.mpr (by linarith)),
    if_neg (not_le.mpr (by linarith)),
    if_neg (not_le.mpr (by linarith)),
    if_neg (not_le.mpr (by linarith)),
    if_neg (not_le.mpr hb),
    if_pos ha]

lemma gradeVal_D (score : Rat) (ha : 4.0 ≤ score) (hb : score < 5.0) :
    getLetterGrade score = "D" := by
  unfold getLetterGrade
  rw [if_neg (not_le.mpr (by linarith)),
    if_neg (not_le.mpr (by linarith)),
    if_neg (not_le.mpr (by linarith)),
    if_neg (not_le.mpr (by linarith)),
    if_neg (not_le.mpr (by linarith)),
    if_neg (not_le.mpr (by linarith)),
    if_neg (not_le.mpr (by linarith)),
    if_neg (not_le.mpr (by linarith)),
    if_neg (not_le.mpr (by linarith)),
    if_neg (not_le.mpr hb),
    if_pos ha]

lemma gradeVal_F (score : Rat) (hb : score < 4.0) :
    getLetterGrade score = "F" := by
  unfold getLetterGrade
  rw [if_neg (not_le.mpr (by linarith)),
    if_neg (not_le.mpr (by linarith)),
    if_neg (not_le.mpr (by linarith)),
    if_neg (not_le.mpr (by linarith)),
    if_neg (not_le.mpr (by linarith)),
    if_neg (not_le.mpr (by linarith)),
    if_neg (not_le.mpr (by linarith)),
    if_neg (not_le.mpr (by linarith)),
    if_neg (not_le.mpr (by linarith)),
    if_neg (not_le.mpr (by linarith)),
    if_neg (not_le.mpr hb)]

lemma getLetterGrade_cases (score : Rat) :
    (9.5 ≤ score ∧ getLetterGrade score = "A+") ∨
    ((9.0 ≤ score ∧ score < 9.5) ∧ getLetterGrade score = "A") ∨
    ((8.5 ≤ score ∧ score < 9.0) ∧ getLetterGrade score = "A-") ∨
    ((8.0 ≤ score ∧ score < 8.5) ∧ getLetterGrade score = "B+") ∨
    ((7.5 ≤ score ∧ score < 8.0) ∧ getLetterGrade score = "B") ∨
    ((7.0 ≤ score ∧ score < 7.5) ∧ getLetterGrade score = "B-") ∨
    ((6.5 ≤ score ∧ score < 7.0) ∧ getLetterGrade score = "C+") ∨
    ((6.0 ≤ score ∧ score < 6.5) ∧ getLetterGrade score = "C") ∨
    ((5.5 ≤ score ∧ score < 6.0) ∧ getLetterGrade score = "C-") ∨
    ((5.0 ≤ score ∧ score < 5.5) ∧ getLetterGrade score = "D+") ∨
    ((4.0 ≤ score ∧ score < 5.0) ∧ getLetterGrade score = "D") ∨
    (score < 4.0 ∧ getLetterGrade score = "F") := by
  rcases le_or_lt 9.5 score with h | h1
  · exact Or.inl ⟨h, gradeVal_APlus score h⟩
  rcases le_or_lt 9.0 score with h | h2
  · exact Or.inr (Or.inl ⟨⟨h, h1⟩, gradeVal_A score h h1⟩)
  rcases le_or_lt 8.5 score with h | h3
  · exact Or.inr (Or.inr (Or.inl ⟨⟨h, h2⟩, gradeVal_AMinus score h h2⟩))
  rcases le_or_lt 8.0 score with h | h4
  · exact Or.inr (Or.inr (Or.inr (Or.inl ⟨⟨h, h3⟩, gradeVal_BPlus score h h3⟩)))
  rcases le_or_lt 7.5 score with h | h5
  · exact Or.inr (Or.inr (Or.inr (Or.inr (Or.inl ⟨⟨h, h4⟩, gradeVal_B score h h4⟩))))
  rcases le_or_lt 7.0 score with h | h6
  · exact Or.inr (Or.inr (Or.inr (Or.inr (Or.inr (Or.inl ⟨⟨h, h5⟩, gradeVal_BMinus score h h5⟩)))))
  rcases le_or_lt 6.5 score with h | h7
  · exact Or.inr (Or.inr (Or.inr (Or.inr (Or.inr (Or.inr (Or.inl ⟨⟨h, h6⟩, gradeVal_CPlus score h h6⟩))))))
  rcases le_or_lt 6.0 score with h | h8
  · exact Or.inr (Or.inr (Or.inr (Or.inr (Or.inr (Or.inr (Or.inr (Or.inl ⟨⟨h, h7⟩, gradeVal_C score h h7⟩)))))))
  rcases le_or_lt 5.5 score with h | h9
  · exact Or.inr (Or.inr (Or.inr (Or.inr (Or.inr (Or.inr (Or.inr (Or.inr (Or.inl ⟨⟨h, h8⟩, gradeVal_CMinus score h h8⟩))))))))
  rcases le_or_lt 5.0 score with h | h10
  · exact Or.inr (Or.inr (Or.inr (Or.inr (Or.inr (Or.inr (Or.inr (Or.inr (Or.inr (Or.inl ⟨⟨h, h9⟩, gradeVal_DPlus score h h9⟩)))))))))
  rcases le_or_lt 4.0 score with h | h11
  · exact Or.inr (Or.inr (Or.inr (Or.inr (Or.inr (Or.inr (Or.inr (Or.inr (Or.inr (Or.inr (Or.inl ⟨⟨h, h10⟩, gradeVal_D score h h10⟩))))))))))
  exact Or.inr (Or.inr (Or.inr (Or.inr (Or.inr (Or.inr (Or.inr (Or.inr (Or.inr (Or.inr (Or.inr (⟨h11, gradeVal_F score h11⟩)))))))))))

/-- C10: every score falls in exactly one of the twelve half-open threshold
ranges of `getLetterGrade`, each range yielding its grade, and a higher
score never yields a lower grade (monotonicity in `gradeRank`). -/
theorem getLetterGrade_thresholds_monotone :
    (∀ score : Rat,
      (getLetterGrade score = "A+" ↔ 9.5 ≤ score) ∧
      (getLetterGrade score = "A" ↔ 9.0 ≤ score ∧ score < 9.5) ∧
      (getLetterGrade score = "A-" ↔ 8.5 ≤ score ∧ score < 9.0) ∧
      (getLetterGrade score = "B+" ↔ 8.0 ≤ score ∧ score < 8.5) ∧
      (getLetterGrade score = "B" ↔ 7.5 ≤ score ∧ score < 8.0) ∧
      (getLetterGrade score = "B-" ↔ 7.0 ≤ score ∧ score < 7.5) ∧
      (getLetterGrade score = "C+" ↔ 6.5 ≤ score ∧ score < 7.0) ∧
      (getLetterGrade score = "C" ↔ 6.0 ≤ score ∧ score < 6.5) ∧
      (getLetterGrade score = "C-" ↔ 5.5 ≤ score ∧ score < 6.0) ∧
      (getLetterGrade score = "D+" ↔ 5.0 ≤ score ∧ score < 5.5) ∧
      (getLetterGrade score = "D" ↔ 4.0 ≤ score ∧ score < 5.0) ∧
      (getLetterGrade score = "F" ↔ score < 4.0)) ∧
    (∀ s t : Rat, s ≤ t →
      gradeRank (getLetterGrade s) ≤ gradeRank (getLetterGrade t)) := by
  constructor
  · intro score
    refine ⟨?_, ?_, ?_, ?_, ?_, ?_, ?_, ?_, ?_, ?_, ?_, ?_⟩
    · constructor
      · intro h
        rcases getLetterGrade_cases score with ⟨ha, he⟩ | ⟨⟨ha, hb⟩, he⟩ | ⟨⟨ha, hb⟩, he⟩ | ⟨⟨ha, hb⟩, he⟩ | ⟨⟨ha, hb⟩, he⟩ | ⟨⟨ha, hb⟩, he⟩ | ⟨⟨ha, hb⟩, he⟩ | ⟨⟨ha, hb⟩, he⟩ | ⟨⟨ha, hb⟩, he⟩ | ⟨⟨ha, hb⟩, he⟩ | ⟨⟨ha, hb⟩, he⟩ | ⟨hb, he⟩ <;>
          first
            | exact ha
            | exact hb
            | exact ⟨ha, hb⟩
            | exact absurd (he.symm.trans h) (by decide)
      · intro h
        exact gradeVal_APlus score h
    · constructor
      · intro h
        rcases getLetterGrade_cases score with ⟨ha, he⟩ | ⟨⟨ha, hb⟩, he⟩ | ⟨⟨ha, hb⟩, he⟩ | ⟨⟨ha, hb⟩, he⟩ | ⟨⟨ha, hb⟩, he⟩ | ⟨⟨ha, hb⟩, he⟩ | ⟨⟨ha, hb⟩, he⟩ | ⟨⟨ha, hb⟩, he⟩ | ⟨⟨ha, hb⟩, he⟩ | ⟨⟨ha, hb⟩, he⟩ | ⟨⟨ha, hb⟩, he⟩ | ⟨hb, he⟩ <;>
          first
            | exact ha
            | exact hb
            | exact ⟨ha, hb⟩
            | exact absurd (he.symm.trans h) (by decide)
      · rintro ⟨ha, hb⟩
        exact gradeVal_A score ha hb
    · constructor
      · intro h
        rcases getLetterGrade_cases score with ⟨ha, he⟩ | ⟨⟨ha, hb⟩, he⟩ | ⟨⟨ha, hb⟩, he⟩ | ⟨⟨ha, hb⟩, he⟩ | ⟨⟨ha, hb⟩, he⟩ | ⟨⟨ha, hb⟩, he⟩ | ⟨⟨ha, hb⟩, he⟩ | ⟨⟨ha, hb⟩, he⟩ | ⟨⟨ha, hb⟩, he⟩ | ⟨⟨ha, hb⟩, he⟩ | ⟨⟨ha, hb⟩, he⟩ | ⟨hb, he⟩ <;>
          first
            | exact ha
            | exact hb
            | exact ⟨ha, hb⟩
            | exact absurd (he.symm.trans h) (by decide)
      · rintro ⟨ha, hb⟩
        exact gradeVal_AMinus score ha hb
    · constructor
      · intro h
        rcases getLetterGrade_cases score with ⟨ha, he⟩ | ⟨⟨ha, hb⟩, he⟩ | ⟨⟨ha, hb⟩, he⟩ | ⟨⟨ha, hb⟩, he⟩ | ⟨⟨ha, hb⟩, he⟩ | ⟨⟨ha, hb⟩, he⟩ | ⟨⟨ha, hb⟩, he⟩ | ⟨⟨ha, hb⟩, he⟩ | ⟨⟨ha, hb⟩, he⟩ | ⟨⟨ha, hb⟩, he⟩ | ⟨⟨ha, hb⟩, he⟩ | ⟨hb, he⟩ <;>
          first
            | exact ha
            | exact hb
            | exact ⟨ha, hb⟩
            | exact absurd (he.symm.trans h) (by decide)
      · rintro ⟨ha, hb⟩
        exact gradeVal_BPlus score ha hb
    · constructor
      · intro h
        rcases getLetterGrade_cases score with ⟨ha, he⟩ | ⟨⟨ha, hb⟩, he⟩ | ⟨⟨ha, hb⟩, he⟩ | ⟨⟨ha, hb⟩, he⟩ | ⟨⟨ha, hb⟩, he⟩ | ⟨⟨ha, hb⟩, he⟩ | ⟨⟨ha, hb⟩, he⟩ | ⟨⟨ha, hb⟩, he⟩ | ⟨⟨ha, hb⟩, he⟩ | ⟨⟨ha, hb⟩, he⟩ | ⟨⟨ha, hb⟩, he⟩ | ⟨hb, he⟩ <;>
          first
            | exact ha
            | exact hb
            | exact ⟨ha, hb⟩
            | exact absurd (he.symm.trans h) (by decide)
      · rintro ⟨ha, hb⟩
        exact gradeVal_B score ha hb
    · constructor
      · intro h
        rcases getLetterGrade_cases score with ⟨ha, he⟩ | ⟨⟨ha, hb⟩, he⟩ | ⟨⟨ha, hb⟩, he⟩ | ⟨⟨ha, hb⟩, he⟩ | ⟨⟨ha, hb⟩, he⟩ | ⟨⟨ha, hb⟩, he⟩ | ⟨⟨ha, hb⟩, he⟩ | ⟨⟨ha, hb⟩, he⟩ | ⟨⟨ha, hb⟩, he⟩ | ⟨⟨ha, hb⟩, he⟩ | ⟨⟨ha, hb⟩, he⟩ | ⟨hb, he⟩ <;>
          first
            | exact ha
            | exact hb
            | exact ⟨ha, hb⟩
            | exact absurd (he.symm.trans h) (by decide)
      · rintro ⟨ha, hb⟩
        exact gradeVal_BMinus score ha hb
    · constructor
      · intro h
        rcases getLetterGrade_cases score with ⟨ha, he⟩ | ⟨⟨ha, hb⟩, he⟩ | ⟨⟨ha, hb⟩, he⟩ | ⟨⟨ha, hb⟩, he⟩ | ⟨⟨ha, hb⟩, he⟩ | ⟨⟨ha, hb⟩, he⟩ | ⟨⟨ha, hb⟩, he⟩ | ⟨⟨ha, hb⟩, he⟩ | ⟨⟨ha, hb⟩, he⟩ | ⟨⟨ha, hb⟩, he⟩ | ⟨⟨ha, hb⟩, he⟩ | ⟨hb, he⟩ <;>
          first
            | exact ha
            | exact hb
            | exact ⟨ha, hb⟩
            | exact absurd (he.symm.trans h) (by decide)
      · rintro ⟨ha, hb⟩
        exact gradeVal_CPlus score ha hb
    · constructor
      · intro h
        rcases getLetterGrade_cases score with ⟨ha, he⟩ | ⟨⟨ha, hb⟩, he⟩ | ⟨⟨ha, hb⟩, he⟩ | ⟨⟨ha, hb⟩, he⟩ | ⟨⟨ha, hb⟩, he⟩ | ⟨⟨ha, hb⟩, he⟩ | ⟨⟨ha, hb⟩, he⟩ | ⟨⟨ha, hb⟩, he⟩ | ⟨⟨ha, hb⟩, he⟩ | ⟨⟨ha, hb⟩, he⟩ | ⟨⟨ha, hb⟩, he⟩ | ⟨hb, he⟩ <;>
          first
            | exact ha
            | exact hb
            | exact ⟨ha, hb⟩
            | exact absurd (he.symm.trans h) (by decide)
      · rintro ⟨ha, hb⟩
        exact gradeVal_C score ha hb
    · constructor
      · intro h
        rcases getLetterGrade_cases score with ⟨ha, he⟩ | ⟨⟨ha, hb⟩, he⟩ | ⟨⟨ha, hb⟩, he⟩ | ⟨⟨ha, hb⟩, he⟩ | ⟨⟨ha, hb⟩, he⟩ | ⟨⟨ha, hb⟩, he⟩ | ⟨⟨ha, hb⟩, he⟩ | ⟨⟨ha, hb⟩, he⟩ | ⟨⟨ha, hb⟩, he⟩ | ⟨⟨ha, hb⟩, he⟩ | ⟨⟨ha, hb⟩, he⟩ | ⟨hb, he⟩ <;>
          first
            | exact ha
            | exact hb
            | exact ⟨ha, hb⟩
            | exact absurd (he.symm.trans h) (by decide)
      · rintro ⟨ha, hb⟩
        exact gradeVal_CMinus score ha hb
    · constructor
      · intro h
        rcases getLetterGrade_cases score with ⟨ha, he⟩ | ⟨⟨ha, hb⟩, he⟩ | ⟨⟨ha, hb⟩, he⟩ | ⟨⟨ha, hb⟩, he⟩ | ⟨⟨ha, hb⟩, he⟩ | ⟨⟨ha, hb⟩, he⟩ | ⟨⟨ha, hb⟩, he⟩ | ⟨⟨ha, hb⟩, he⟩ | ⟨⟨ha, hb⟩, he⟩ | ⟨⟨ha, hb⟩, he⟩ | ⟨⟨ha, hb⟩, he⟩ | ⟨hb, he⟩ <;>
          first
            | exact ha
            | exact hb
            | exact ⟨ha, hb⟩
            | exact absurd (he.symm.trans h) (by decide)
      · rintro ⟨ha, hb⟩
        exact gradeVal_DPlus score ha hb
    · constructor
      · intro h
        rcases getLetterGrade_cases score with ⟨ha, he⟩ | ⟨⟨ha, hb⟩, he⟩ | ⟨⟨ha, hb⟩, he⟩ | ⟨⟨ha, hb⟩, he⟩ | ⟨⟨ha, hb⟩, he⟩ | ⟨⟨ha, hb⟩, he⟩ | ⟨⟨ha, hb⟩, he⟩ | ⟨⟨ha, hb⟩, he⟩ | ⟨⟨ha, hb⟩, he⟩ | ⟨⟨ha, hb⟩, he⟩ | ⟨⟨ha, hb⟩, he⟩ | ⟨hb, he⟩ <;>
          first
            | exact ha
            | exact hb
            | exact ⟨ha, hb⟩
            | exact absurd (he.symm.trans h) (by decide)
      · rintro ⟨ha, hb⟩
        exact gradeVal_D score ha hb
    · constructor
      · intro h
        rcases getLetterGrade_cases score with ⟨ha, he⟩ | ⟨⟨ha, hb⟩, he⟩ | ⟨⟨ha, hb⟩, he⟩ | ⟨⟨ha, hb⟩, he⟩ | ⟨⟨ha, hb⟩, he⟩ | ⟨⟨ha, hb⟩, he⟩ | ⟨⟨ha, hb⟩, he⟩ | ⟨⟨ha, hb⟩, he⟩ | ⟨⟨ha, hb⟩, he⟩ | ⟨⟨ha, hb⟩, he⟩ | ⟨⟨ha, hb⟩, he⟩ | ⟨hb, he⟩ <;>
          first
            | exact ha
            | exact hb
            | exact ⟨ha, hb⟩
            | exact absurd (he.symm.trans h) (by decide)
      · intro h
        exact gradeVal_F score h
  · intro s t hst
    rcases getLetterGrade_cases s with ⟨hsa, hse⟩ | ⟨⟨hsa, hsb⟩, hse⟩ | ⟨⟨hsa, hsb⟩, hse⟩ | ⟨⟨hsa, hsb⟩, hse⟩ | ⟨⟨hsa, hsb⟩, hse⟩ | ⟨⟨hsa, hsb⟩, hse⟩ | ⟨⟨hsa, hsb⟩, hse⟩ | ⟨⟨hsa, hsb⟩, hse⟩ | ⟨⟨hsa, hsb⟩, hse⟩ | ⟨⟨hsa, hsb⟩, hse⟩ | ⟨⟨hsa, hsb⟩, hse⟩ | ⟨hsb, hse⟩ <;>
      rcases getLetterGrade_cases t with ⟨hta, hte⟩ | ⟨⟨hta, htb⟩, hte⟩ | ⟨⟨hta, htb⟩, hte⟩ | ⟨⟨hta, htb⟩, hte⟩ | ⟨⟨hta, htb⟩, hte⟩ | ⟨⟨hta, htb⟩, hte⟩ | ⟨⟨hta, htb⟩, hte⟩ | ⟨⟨hta, htb⟩, hte⟩ | ⟨⟨hta, htb⟩, hte⟩ | ⟨⟨hta, htb⟩, hte⟩ | ⟨⟨hta, htb⟩, hte⟩ | ⟨htb, hte⟩ <;>
      rw [hse, hte] <;>
      first
        | decide
        | (exfalso; linarith)


/-- Witness for the monotonicity part of the threshold theorem: the
hypothesis `s ≤ t` holds at `s = t = 7`. -/
theorem getLetterGrade_thresholds_monotone_witness :
    (7 : Rat) ≤ 7 ∧ gradeRank (getLetterGrade 7) ≤ gradeRank (getLetterGrade 7) :=
  ⟨le_refl 7, getLetterGrade_thresholds_monotone.2 7 7 (le_refl 7)⟩

lemma langOf_python (path : String) : langOf path = .python ↔ fileExt path = "py" := by
  simp only [langOf]
  split_ifs with h1 h2 h3 <;> simp_all

lemma langOf_javascript (path : String) :
    langOf path = .javascript ↔ fileExt path = "js" := by
  simp only [langOf]
  split_ifs with h1 h2 h3 <;> simp_all

lemma langOf_typescript (path : String) :
    langOf path = .typescript ↔ fileExt path = "ts" ∨ fileExt path = "tsx" := by
  simp only [langOf]
  split_ifs with h1 h2 h3 <;> simp_all

lemma langOf_other (path : String) :
    langOf path = .other ↔
      fileExt path ≠ "py" ∧ fileExt path ≠ "js" ∧
      fileExt path ≠ "ts" ∧ fileExt path ≠ "tsx" := by
  simp only [langOf]
  split_ifs with h1 h2 h3 <;> (simp_all; try tauto)

lemma langOf_buckets_sum (paths : List String) :
    paths.countP (fun p => langOf p == Lang.python) +
      paths.countP (fun p => langOf p == Lang.javascript) +
      paths.countP (fun p => langOf p == Lang.typescript) +
      paths.countP (fun p => langOf p == Lang.other) = paths.length := by
  induction paths with
  | nil => rfl
  | cons a l ih =>
      simp only [List.countP_cons, List.length_cons, beq_iff_eq]
      cases langOf a <;> simp <;> omega

/-- C8: each file path lands in exactly one of the four language buckets —
Python for extension `py`, JavaScript for `js`, TypeScript for `ts` or
`tsx`, Other otherwise — so the four counts sum to the number of files,
and an empty `file_analyses` yields all four languages with percentage 0. -/
theorem calculateLanguageDistribution_buckets :
    (∀ path,
      (langOf path = .python ↔ fileExt path = "py") ∧
      (langOf path = .javascript ↔ fileExt path = "js") ∧
      (langOf path = .typescript ↔ fileExt path = "ts" ∨ fileExt path = "tsx") ∧
      (langOf path = .other ↔
        fileExt path ≠ "py" ∧ fileExt path ≠ "js" ∧
        fileExt path ≠ "ts" ∧ fileExt path ≠ "tsx")) ∧
    (∀ fileAnalyses : List (String × FileAnalysis),
      ((calculateLanguageDistribution fileAnalyses).map LangStat.count).sum =
        fileAnalyses.length) ∧
    calculateLanguageDistribution [] =
      [⟨"Python", "#3572A5", 0, 0⟩, ⟨"JavaScript", "#f1e05a", 0, 0⟩,
       ⟨"TypeScript", "#2b7489", 0, 0⟩, ⟨"Other", "#8e8e8e", 0, 0⟩] := by
  refine ⟨fun path => ⟨langOf_python path, langOf_javascript path,
    langOf_typescript path, langOf_other path⟩, fun fileAnalyses => ?_, by decide⟩
  have hsum := langOf_buckets_sum (fileAnalyses.map Prod.fst)
  simp only [List.length_map] at hsum
  simp only [calculateLanguageDistribution]
  split_ifs with h <;>
    simp only [List.map_cons, List.map_nil, List.sum_cons, List.sum_nil, add_zero] <;>
    omega


lemma severityOf_critical (q : Rat) : severityOf q = some 0 ↔ q < 5 := by
  unfold severityOf
  split_ifs with h1 h2 h3 <;>
    constructor <;> intro h <;>
    first
      | exact h1
      | rfl
      | exact absurd h (by decide)
      | (exfalso; linarith)

lemma severityOf_major (q : Rat) : severityOf q = some 1 ↔ 5 ≤ q ∧ q < 7 := by
  unfold severityOf
  split_ifs with h1 h2 h3 <;>
    constructor <;> intro h <;>
    first
      | exact ⟨le_of_not_lt h1, h2⟩
      | rfl
      | exact absurd h (by decide)
      | (exfalso; rcases h with ⟨ha, hb⟩; linarith)

lemma severityOf_minor (q : Rat) : severityOf q = some 2 ↔ 7 ≤ q ∧ q < 9 := by
  unfold severityOf
  split_ifs with h1 h2 h3 <;>
    constructor <;> intro h <;>
    first
      | exact ⟨le_of_not_lt h2, h3⟩
      | rfl
      | exact absurd h (by decide)
      | (exfalso; rcases h with ⟨ha, hb⟩; linarith)

lemma severityOf_none (q : Rat) : severityOf q = none ↔ 9 ≤ q := by
  unfold severityOf
  split_ifs with h1 h2 h3 <;>
    constructor <;> intro h <;>
    first
      | exact le_of_not_lt h3
      | rfl
      | exact absurd h (by decide)
      | (exfalso; linarith)

lemma severityOf_buckets_sum (chunks : List ChunkAnalysis) :
    chunks.countP (fun c => severityOf c.quality_score == some 0) +
      chunks.countP (fun c => severityOf c.quality_score == some 1) +
      chunks.countP (fun c => severityOf c.quality_score == some 2) +
      chunks.countP (fun c => severityOf c.quality_score == none) =
      chunks.length := by
  induction chunks with
  | nil => rfl
  | cons a l ih =>
      simp only [List.countP_cons, List.length_cons, beq_iff_eq]
      cases severityOf a.quality_score with
      | none => simp; omega
      | some i =>
          match i with
          | 0 => simp; omega
          | 1 => simp; omega
          | 2 => simp; omega

/-- C9: `calculateIssuesBySeverity` counts a chunk as Critical exactly when
its quality score is below 5, Major on [5, 7), Minor on [7, 9), counts a
chunk scoring 9 or more in no bucket (the three buckets plus the uncounted
chunks partition all chunks), and returns the three buckets with count 0
and percentage 0 when the total issue count is zero. -/
theorem calculateIssuesBySeverity_spec :
    (∀ q : Rat,
      (severityOf q = some 0 ↔ q < 5) ∧
      (severityOf q = some 1 ↔ 5 ≤ q ∧ q < 7) ∧
      (severityOf q = some 2 ↔ 7 ≤ q ∧ q < 9) ∧
      (severityOf q = none ↔ 9 ≤ q)) ∧
    (∀ fileAnalyses : List (String × FileAnalysis),
      (calculateIssuesBySeverity fileAnalyses).map IssueStat.count =
        [(allChunks fileAnalyses).countP (fun c => severityOf c.quality_score == some 0),
         (allChunks fileAnalyses).countP (fun c => severityOf c.quality_score == some 1),
         (allChunks fileAnalyses).countP (fun c => severityOf c.quality_score == some 2)]) ∧
    (∀ fileAnalyses : List (String × FileAnalysis),
      (allChunks fileAnalyses).countP (fun c => severityOf c.quality_score == some 0) +
        (allChunks fileAnalyses).countP (fun c => severityOf c.quality_score == some 1) +
        (allChunks fileAnalyses).countP (fun c => severityOf c.quality_score == some 2) +
        (allChunks fileAnalyses).countP (fun c => severityOf c.quality_score == none) =
        (allChunks fileAnalyses).length) ∧
    (∀ fileAnalyses : List (String × FileAnalysis),
      (allChunks fileAnalyses).countP (fun c => severityOf c.quality_score == some 0) +
        (allChunks fileAnalyses).countP (fun c => severityOf c.quality_score == some 1) +
        (allChunks fileAnalyses).countP (fun c => severityOf c.quality_score == some 2) = 0 →
      calculateIssuesBySeverity fileAnalyses =
        [⟨"Critical", "#ef4444", 0, 0⟩, ⟨"Major", "#f97316", 0, 0⟩,
         ⟨"Minor", "#eab308", 0, 0⟩]) := by
  refine ⟨fun q => ⟨severityOf_critical q, severityOf_major q,
      severityOf_minor q, severityOf_none q⟩, fun fileAnalyses => ?_,
    fun fileAnalyses => severityOf_buckets_sum (allChunks fileAnalyses),
    fun fileAnalyses h => ?_⟩
  · simp only [calculateIssuesBySeverity]
    split_ifs with h <;> rfl
  · have h0 : (allChunks fileAnalyses).countP
        (fun c => severityOf c.quality_score == some 0) = 0 := by omega
    have h1 : (allChunks fileAnalyses).countP
        (fun c => severityOf c.quality_score == some 1) = 0 := by omega
    have h2 : (allChunks fileAnalyses).countP
        (fun c => severityOf c.quality_score == some 2) = 0 := by omega
    simp only [calculateIssuesBySeverity, h0, h1, h2]
    rfl

/-- Witness for the zero-total case of the severity theorem at the empty
`file_analyses` mapping. -/
theorem calculateIssuesBySeverity_spec_witness :
    calculateIssuesBySeverity [] =
      [⟨"Critical", "#ef4444", 0, 0⟩, ⟨"Major", "#f97316", 0, 0⟩,
       ⟨"Minor", "#eab308", 0, 0⟩] :=
  calculateIssuesBySeverity_spec.2.2.2 [] (by decide)


/-- C2: the second revision's `fetchRepositories` accepts exactly two
response shapes — a bare array, or an object whose `repositories` member is
an array — normalizing both into the same `Repository` list (identical
whenever each entry's `owner` field agrees with the first `/`-segment of
its `full_name`, as GitHub data does), filling missing `branches` with
`["main"]` and missing `lastActive` with `"Recently updated"`; any other
shape throws `"Invalid response format"` and the repository list stays
empty. -/
theorem fetchRepositories_response_shapes (rs : List RepoInput) (data : ReposJson) :
    (fetchRepositoriesParse (.repoArray rs) = .ok (rs.map formatRepoBare)) ∧
    (∀ fields, ReposJson.getField fields "repositories" = some (.repoArray rs) →
      fetchRepositoriesParse (.obj fields) = .ok (rs.map formatRepoWrapped)) ∧
    ((∀ r ∈ rs, r.owner = (⟨(splitChar '/' r.full_name.data).headD []⟩ : String)) →
      rs.map formatRepoBare = rs.map formatRepoWrapped) ∧
    (∀ r : RepoInput,
      (r.branches = none → (formatRepoBare r).branches = ["main"] ∧
        (formatRepoWrapped r).branches = ["main"]) ∧
      (r.lastActive = none → (formatRepoBare r).lastActive = "Recently updated" ∧
        (formatRepoWrapped r).lastActive = "Recently updated")) ∧
    ((∀ rs2, data ≠ .repoArray rs2) →
      (∀ fields, data = .obj fields →
        ∀ rs2, ReposJson.getField fields "repositories" ≠ some (.repoArray rs2)) →
      fetchRepositoriesParse data = .error "Invalid response format" ∧
      repositoriesAfterFetch data = []) := by
  refine ⟨rfl, fun fields h => ?_, fun h => ?_, fun r => ⟨fun h => ?_, fun h => ?_⟩,
    fun h1 h2 => ?_⟩
  · simp only [fetchRepositoriesParse]
    rw [h]
  · refine List.map_congr_left fun r hr => ?_
    simp only [formatRepoBare, formatRepoWrapped]
    rw [← h r hr]
  · exact ⟨by simp [formatRepoBare, h], by simp [formatRepoWrapped, h]⟩
  · exact ⟨by simp [formatRepoBare, h], by simp [formatRepoWrapped, h]⟩
  · have herr : fetchRepositoriesParse data = .error "Invalid response format" := by
      cases data with
      | repoArray rs2 => exact absurd rfl (h1 rs2)
      | obj fields =>
          have hf := h2 fields rfl
          cases hg : ReposJson.getField fields "repositories" with
          | none => simp [fetchRepositoriesParse, hg]
          | some v =>
              cases v with
              | repoArray rs2 => exact absurd hg (hf rs2)
              | obj fields2 => simp [fetchRepositoriesParse, hg]
              | str s => simp [fetchRepositoriesParse, hg]
              | num n => simp [fetchRepositoriesParse, hg]
              | boolean b => simp [fetchRepositoriesParse, hg]
              | null => simp [fetchRepositoriesParse, hg]
      | str s => rfl
      | num n => rfl
      | boolean b => rfl
      | null => rfl
    exact ⟨herr, by simp [repositoriesAfterFetch, herr]⟩

/-- Witness for the shape theorem: a one-element repository array in both
accepted shapes, agreeing after normalization, and a string body rejected
with the empty list. -/
theorem fetchRepositories_response_shapes_witness :
    (fetchRepositoriesParse
        (.repoArray [{ full_name := "octo/demo", owner := "octo", name := "demo",
                       branches := none, lastActive := none }]) =
      .ok [{ full_name := "octo/demo", owner := "octo", name := "demo",
             branches := ["main"], lastActive := "Recently updated" }]) ∧
    ([({ full_name := "octo/demo", owner := "octo", name := "demo",
          branches := none, lastActive := none } : RepoInput)].map formatRepoBare =
      [({ full_name := "octo/demo", owner := "octo", name := "demo",
            branches := none, lastActive := none } : RepoInput)].map formatRepoWrapped) ∧
    (fetchRepositoriesParse (.str "nope") = .error "Invalid response format" ∧
      repositoriesAfterFetch (.str "nope") = []) :=
  ⟨by rfl,
   (fetchRepositories_response_shapes
       [{ full_name := "octo/demo", owner := "octo", name := "demo",
          branches := none, lastActive := none }] (.str "nope")).2.2.1
     (by decide),
   (fetchRepositories_response_shapes [] (.str "nope")).2.2.2.2
     (by intro rs2 h; cases h) (by intro fields h; cases h)⟩

/-- C3: the two `fetchRepositories` call sites transport the same GitHub
token differently — one in an `Authorization: Bearer <token>` header, the
other in a custom `GitHub-Token` header — each omitting the header the
other uses, with the identical token string embedded in both. -/
theorem fetchRepositories_token_transport (githubToken : String) :
    headerValue (fetchRepositoriesHeadersV1 githubToken) "Authorization"
        = some ("Bearer " ++ githubToken) ∧
    headerValue (fetchRepositoriesHeadersV1 githubToken) "GitHub-Token" = none ∧
    headerValue (fetchRepositoriesHeadersV2 githubToken) "GitHub-Token"
        = some githubToken ∧
    headerValue (fetchRepositoriesHeadersV2 githubToken) "Authorization" = none :=
  ⟨rfl, rfl, rfl, rfl⟩

/-- C7: `GET /api/health` answers HTTP 200 with body `{status: "healthy"}`
whatever token header the caller supplies, including none. -/
theorem health_always_healthy (githubToken : Option String) :
    (handleHealth githubToken).1 = 200 ∧
    (handleHealth githubToken).2 = [("status", "healthy")] :=
  ⟨rfl, rfl⟩


/-- C4: a chat submission whose question trims to empty is rejected before
anything happens — `handleSendMessage` makes no HTTP request and leaves the
message list, `conversationId` and loading state unchanged — and the Chat
Orchestrator (modelled from the spec) rejects an empty question with a
validation error before touching the Conversation Store. -/
theorem handleSendMessage_empty_question (selectedRepo githubToken : Option String)
    (st : ChatState) (outcome : FetchOutcome) (now : Nat)
    (h : jsTrim st.input = "") :
    handleSendMessage selectedRepo githubToken st outcome now = (st, none) ∧
    (∀ (store : ConvStore) (input : ChatInput), input.question = "" →
      chatOrchestrate store input = (store, .error .validation)) := by
  constructor
  · simp [handleSendMessage, h]
  · intro store input hq
    simp [chatOrchestrate, hq]

/-- Witness for the empty-question theorem: a whitespace-only input makes no
request and changes nothing, and the modelled orchestrator rejects the
empty question leaving the store untouched. -/
theorem handleSendMessage_empty_question_witness :
    jsTrim "   " = "" ∧
    handleSendMessage (some "octo/demo") (some "ghp_token")
        { messages := [], input := "   ", isLoading := false, conversationId := none }
        (.success (some "hi") (some "c1")) 3 =
      ({ messages := [], input := "   ", isLoading := false, conversationId := none },
       none) ∧
    chatOrchestrate { nextId := 0, convs := [] }
        { question := "", repository := "octo/demo",
          conversationId := none, agentAnswer := some "an answer" } =
      ({ nextId := 0, convs := [] }, .error .validation) :=
  ⟨by decide,
   (handleSendMessage_empty_question (some "octo/demo") (some "ghp_token")
       { messages := [], input := "   ", isLoading := false, conversationId := none }
       (.success (some "hi") (some "c1")) 3 (by decide)).1,
   (handleSendMessage_empty_question (some "x") (some "y")
       { messages := [], input := "", isLoading := false, conversationId := none }
       .failure 0 (by decide)).2
     { nextId := 0, convs := [] }
     { question := "", repository := "octo/demo",
       conversationId := none, agentAnswer := some "an answer" } rfl⟩

/-- C1 as stated fails on the client: after a failed `/api/chat` request the
`catch` block of `handleSendMessage` appends an assistant-role error
message, so the displayed sequence does not end with the user's question. -/
theorem handleSendMessage_failure_appends_error_message :
    (((handleSendMessage (some "octo/demo") (some "ghp_token")
          { messages := [], input := "What is this repo about?",
            isLoading := false, conversationId := none }
          .failure 7).1.messages.getLast?).map Message.role) = some Role.assistant ∧
    ((handleSendMessage (some "octo/demo") (some "ghp_token")
          { messages := [], input := "What is this repo about?",
            isLoading := false, conversationId := none }
          .failure 7).1.messages.map Message.content) =
      ["What is this repo about?",
       "Sorry, there was an error processing your request. Please try again later."] := by
  decide

/-- C1 (amended): on a failed `/api/chat` request the client appends the
user message and then one locally generated assistant-role message with the
fixed generic error text — no agent-produced content — leaving
`conversationId` unchanged for a clean retry; the orchestrator modelled
from the spec appends no assistant message on agent failure and returns an
error, the stored conversation ending with only the user's question. -/
theorem chat_failure_amended :
    (∀ (selectedRepo githubToken : Option String) (st : ChatState) (now : Nat),
      jsTrim st.input ≠ "" → strTruthy selectedRepo = true →
      strTruthy githubToken = true →
      handleSendMessage selectedRepo githubToken st .failure now =
        ({ messages := st.messages ++
             [{ id := now, role := .user, content := st.input, timestamp := now },
              { id := now + 1, role := .assistant, content := chatErrorText,
                timestamp := now }]
           input := ""
           isLoading := false
           conversationId := st.conversationId },
         some { question := st.input
                repository := selectedRepo.getD ""
                history := st.messages.map (fun m => (m.role, m.content))
                conversation_id := st.conversationId })) ∧
    (∀ (store : ConvStore) (question repository : String),
      question ≠ "" →
      (∀ c ∈ store.convs, c.id < store.nextId) →
      chatOrchestrate store
          { question := question, repository := repository,
            conversationId := none, agentAnswer := none } =
        ({ nextId := store.nextId + 1
           convs := store.convs ++
             [{ id := store.nextId, repository := repository,
                messages := [(.user, question)] }] },
         .error .agentFailure)) := by
  constructor
  · intro selectedRepo githubToken st now hin hrepo htok
    simp [handleSendMessage, hin, hrepo, htok]
  · intro store question repository hq hfresh
    simp only [chatOrchestrate, resolveConversation]
    rw [if_neg hq]
    simp only [ConvStore.create, ConvStore.append, List.map_append]
    have hold : store.convs.map (fun c =>
        if c.id = store.nextId
        then { c with messages := c.messages ++ [(Role.user, question)] } else c) =
        store.convs := by
      calc store.convs.map (fun c =>
            if c.id = store.nextId
            then { c with messages := c.messages ++ [(Role.user, question)] } else c) =
          store.convs.map id :=
            List.map_congr_left fun c hc => if_neg (Nat.ne_of_lt (hfresh c hc))
        _ = store.convs := List.map_id store.convs
    rw [hold]
    simp

/-- Witness for the amended failure theorem at a concrete question, state
and store. -/
theorem chat_failure_amended_witness :
    handleSendMessage (some "octo/demo") (some "ghp_token")
        { messages := [], input := "What is this repo about?",
          isLoading := false, conversationId := some "c1" } .failure 7 =
      ({ messages :=
           [{ id := 7, role := .user, content := "What is this repo about?",
              timestamp := 7 },
            { id := 8, role := .assistant, content := chatErrorText,
              timestamp := 7 }]
         input := ""
         isLoading := false
         conversationId := some "c1" },
       some { question := "What is this repo about?"
              repository := "octo/demo"
              history := []
              conversation_id := some "c1" }) ∧
    chatOrchestrate { nextId := 0, convs := [] }
        { question := "What is this repo about?", repository := "octo/demo",
          conversationId := none, agentAnswer := none } =
      ({ nextId := 1
         convs := [{ id := 0, repository := "octo/demo",
                     messages := [(.user, "What is this repo about?")] }] },
       .error .agentFailure) :=
  ⟨chat_failure_amended.1 (some "octo/demo") (some "ghp_token")
      { messages := [], input := "What is this repo about?",
        isLoading := false, conversationId := some "c1" } 7
      (by decide) (by decide) (by decide),
   chat_failure_amended.2 { nextId := 0, convs := [] }
      "What is this repo about?" "octo/demo" (by decide) (by simp)⟩


lemma strTruthy_iff (o : Option String) :
    strTruthy o = true ↔ ∃ s, o = some s ∧ s ≠ "" := by
  cases o <;> simp [strTruthy]

lemma asyncUiStep_sendRequest_skip (st : AsyncUiState) (input : String)
    (githubToken : Option String) (now : Nat)
    (h : jsTrim input = "" ∨ ¬ strTruthy st.selectedRepo = true ∨
      ¬ strTruthy githubToken = true) :
    asyncUiStep st (.sendRequest input githubToken now) = (st, none) := by
  by_cases h1 : jsTrim input = ""
  · simp [asyncUiStep, h1]
  · rcases h with h | h | h
    · exact absurd h h1
    · simp [asyncUiStep, h1, h]
    · by_cases h2 : strTruthy st.selectedRepo = true
      · simp [asyncUiStep, h1, h2, h]
      · simp [asyncUiStep, h1, h2]

lemma asyncUiStep_sendRequest_eq (st : AsyncUiState) (input : String)
    (githubToken : Option String) (now : Nat)
    (h1 : jsTrim input ≠ "") (h2 : strTruthy st.selectedRepo = true)
    (h3 : strTruthy githubToken = true) :
    asyncUiStep st (.sendRequest input githubToken now) =
      ({ selectedRepo := st.selectedRepo
         chat := { messages := st.chat.messages ++
                     [{ id := now, role := .user, content := input, timestamp := now }]
                   input := ""
                   isLoading := true
                   conversationId := st.chat.conversationId }
         pending := st.pending ++
           [{ question := input
              repository := st.selectedRepo.getD ""
              history := st.chat.messages.map (fun m => (m.role, m.content))
              conversation_id := st.chat.conversationId }] },
       some (.requested (st.selectedRepo.getD "") st.chat.conversationId)) := by
  simp [asyncUiStep, h1, h2, h3]

lemma asyncUiStep_respond_none (st : AsyncUiState) (i : Nat)
    (outcome : FetchOutcome) (now : Nat) (hreq : st.pending.get? i = none) :
    asyncUiStep st (.respond i outcome now) = (st, none) := by
  rw [List.get?_eq_getElem?] at hreq
  simp [asyncUiStep, hreq]

lemma asyncUiStep_respond_success_eq (st : AsyncUiState) (i : Nat)
    (resp cid : Option String) (now : Nat) (req : ChatRequest)
    (hreq : st.pending.get? i = some req) :
    asyncUiStep st (.respond i (.success resp cid) now) =
      ({ selectedRepo := st.selectedRepo
         chat := { messages := st.chat.messages ++
                     [{ id := now + 1, role := .assistant
                        content := if strTruthy resp = true then resp.getD ""
                                   else chatFallbackText
                        timestamp := now }]
                   input := st.chat.input
                   isLoading := false
                   conversationId :=
                     if strTruthy cid = true then cid else st.chat.conversationId }
         pending := st.pending.eraseIdx i },
       if strTruthy cid = true
       then cid.map (fun c => ChatLogEntry.issued req.repository c)
       else none) := by
  rw [List.get?_eq_getElem?] at hreq
  simp [asyncUiStep, hreq]

lemma asyncUiStep_respond_failure_eq (st : AsyncUiState) (i : Nat) (now : Nat)
    (req : ChatRequest) (hreq : st.pending.get? i = some req) :
    asyncUiStep st (.respond i .failure now) =
      ({ selectedRepo := st.selectedRepo
         chat := { messages := st.chat.messages ++
                     [{ id := now + 1, role := .assistant, content := chatErrorText,
                        timestamp := now }]
                   input := st.chat.input
                   isLoading := false
                   conversationId := st.chat.conversationId }
         pending := st.pending.eraseIdx i },
       none) := by
  rw [List.get?_eq_getElem?] at hreq
  simp [asyncUiStep, hreq]

lemma get_append_left {α : Type} {l : List α} {z : α} {i : Fin (l ++ [z]).length}
    (hi : i.val < l.length) :
    (l ++ [z]).get i = l.get ⟨i.val, hi⟩ ∧ (l ++ [z]).take i.val = l.take i.val := by
  constructor
  · exact List.get_append i.val hi
  · rw [List.take_append_eq_append_take]
    simp [Nat.sub_eq_zero_of_le (le_of_lt hi)]

lemma get_append_last {α : Type} {l : List α} {z : α} {i : Fin (l ++ [z]).length}
    (hi : ¬ i.val < l.length) :
    (l ++ [z]).get i = z ∧ (l ++ [z]).take i.val = l := by
  have hieq : i.val = l.length := by
    have h := i.isLt
    simp only [List.length_append, List.length_singleton] at h
    omega
  constructor
  · have h2 : (l ++ [z]).get i = (l ++ [z]).get ⟨l.length, by simp⟩ := by
      congr 1
      exact Fin.ext hieq
    rw [h2]
    exact List.get_of_append rfl rfl
  · rw [hieq]
    exact List.take_left l [z]

/-- Consistency invariant of a serialized run: a stored conversation id
was issued by a response answering a request for the currently selected
repository, and every logged request carrying a conversation id was
preceded by the issuance of that id for the same repository. -/
def AsyncConsistent (st : AsyncUiState) (log : List ChatLogEntry) : Prop :=
  (∀ cid, st.chat.conversationId = some cid →
    ∃ r, st.selectedRepo = some r ∧ ChatLogEntry.issued r cid ∈ log) ∧
  (∀ i : Fin log.length, ∀ r cid,
    log.get i = .requested r (some cid) →
    ChatLogEntry.issued r cid ∈ log.take i.val)

lemma AsyncConsistent.unchanged {st : AsyncUiState} {log : List ChatLogEntry}
    (hinv : AsyncConsistent st log) (st2 : AsyncUiState)
    (hrepo : st2.selectedRepo = st.selectedRepo)
    (hcid : st2.chat.conversationId = st.chat.conversationId) :
    AsyncConsistent st2 (log ++ []) := by
  rw [List.append_nil]
  refine ⟨fun cid hc => ?_, hinv.2⟩
  rw [hcid] at hc
  obtain ⟨r, hr, hc2⟩ := hinv.1 cid hc
  exact ⟨r, hrepo ▸ hr, hc2⟩

lemma AsyncConsistent.cleared {st : AsyncUiState} {log : List ChatLogEntry}
    (hinv : AsyncConsistent st log) (st2 : AsyncUiState)
    (hcid : st2.chat.conversationId = none) :
    AsyncConsistent st2 (log ++ []) := by
  rw [List.append_nil]
  refine ⟨fun cid hc => ?_, hinv.2⟩
  rw [hcid] at hc
  exact absurd hc (by simp)

lemma asyncUiStep_consistent {st : AsyncUiState} {log : List ChatLogEntry}
    (e : AsyncUiEvent)
    (hsafe : (match e with
              | .respond i _ _ =>
                  match st.pending.get? i with
                  | some req => st.selectedRepo == some req.repository
                  | none => true
              | _ => true) = true)
    (hinv : AsyncConsistent st log) :
    AsyncConsistent (asyncUiStep st e).1 (log ++ ((asyncUiStep st e).2).toList) := by
  cases e with
  | selectRepo repo now =>
      simp only [asyncUiStep]
      split_ifs with hsame
      · exact hinv.unchanged _ rfl rfl
      · cases repo with
        | some r => exact hinv.cleared _ rfl
        | none => exact hinv.cleared _ rfl
  | sendRequest input token now =>
      by_cases h1 : jsTrim input = ""
      · rw [asyncUiStep_sendRequest_skip _ _ _ _ (Or.inl h1)]
        exact hinv.unchanged _ rfl rfl
      by_cases h2 : strTruthy st.selectedRepo = true
      case neg =>
        rw [asyncUiStep_sendRequest_skip _ _ _ _ (Or.inr (Or.inl h2))]
        exact hinv.unchanged _ rfl rfl
      by_cases h3 : strTruthy token = true
      case neg =>
        rw [asyncUiStep_sendRequest_skip _ _ _ _ (Or.inr (Or.inr h3))]
        exact hinv.unchanged _ rfl rfl
      rw [asyncUiStep_sendRequest_eq _ _ _ _ h1 h2 h3]
      obtain ⟨r0, hr0, hr0ne⟩ := (strTruthy_iff st.selectedRepo).mp h2
      have hget : st.selectedRepo.getD "" = r0 := by rw [hr0]; rfl
      simp only [Option.toList_some]
      constructor
      · intro cid hc
        simp only at hc
        obtain ⟨r, hr, hc2⟩ := hinv.1 cid hc
        exact ⟨r, hr, List.mem_append_left _ hc2⟩
      · intro i r cid hreq
        by_cases hi : i.val < log.length
        · obtain ⟨hg, ht⟩ := get_append_left hi
          rw [hg] at hreq
          rw [ht]
          exact hinv.2 ⟨i.val, hi⟩ r cid hreq
        · obtain ⟨hg, ht⟩ := get_append_last hi
          rw [hg] at hreq
          rw [ht]
          injection hreq with hre hrc
          obtain ⟨r1, hr1, hmem⟩ := hinv.1 cid hrc
          have hrr : r1 = r0 := by
            rw [hr1] at hr0
            exact Option.some.inj hr0
          rw [← hre, hget, ← hrr]
          exact hmem
  | respond i outcome now =>
      cases hreq : st.pending.get? i with
      | none =>
          rw [asyncUiStep_respond_none _ _ _ _ hreq]
          exact hinv.unchanged _ rfl rfl
      | some req =>
          cases outcome with
          | failure =>
              rw [asyncUiStep_respond_failure_eq _ _ _ req hreq]
              exact hinv.unchanged _ rfl rfl
          | success resp cid =>
              rw [asyncUiStep_respond_success_eq _ _ _ _ _ req hreq]
              by_cases hcid : strTruthy cid = true
              · obtain ⟨c, hceq, hcne⟩ := (strTruthy_iff cid).mp hcid
                have hsafe2 : st.selectedRepo = some req.repository := by
                  have h2 : (match st.pending.get? i with
                      | some req2 => st.selectedRepo == some req2.repository
                      | none => true) = true := hsafe
                  rw [hreq] at h2
                  simpa using h2
                simp only [if_pos hcid]
                simp only [hceq, Option.map_some', Option.toList_some]
                constructor
                · intro c2 hc2
                  simp only at hc2
                  obtain rfl : c = c2 := Option.some.inj hc2
                  exact ⟨req.repository, hsafe2,
                    List.mem_append_right _ (List.mem_singleton_self _)⟩
                · intro j r cid2 hreq2
                  by_cases hj : j.val < log.length
                  · obtain ⟨hg, ht⟩ := get_append_left hj
                    rw [hg] at hreq2
                    rw [ht]
                    exact hinv.2 ⟨j.val, hj⟩ r cid2 hreq2
                  · obtain ⟨hg, ht⟩ := get_append_last hj
                    rw [hg] at hreq2
                    exact ChatLogEntry.noConfusion hreq2
              · simp only [if_neg hcid]
                exact hinv.unchanged _ rfl rfl

lemma asyncUiRunFrom_consistent (events : List AsyncUiEvent) (st : AsyncUiState)
    (log : List ChatLogEntry) (hsafe : safeRun st events = true)
    (hinv : AsyncConsistent st log) :
    AsyncConsistent (asyncUiRunFrom st events).1
      (log ++ (asyncUiRunFrom st events).2) := by
  induction events generalizing st log with
  | nil => simpa [asyncUiRunFrom] using hinv
  | cons e es ih =>
      simp only [safeRun, Bool.and_eq_true] at hsafe
      simp only [asyncUiRunFrom]
      have h1 := asyncUiStep_consistent e hsafe.1 hinv
      have h2 := ih (asyncUiStep st e).1 (log ++ ((asyncUiStep st e).2).toList)
        hsafe.2 h1
      simpa [List.append_assoc] using h2

lemma initialAsync_consistent : AsyncConsistent initialAsyncUiState [] := by
  constructor
  · intro cid hc
    simp [initialAsyncUiState] at hc
  · intro i
    exact absurd i.isLt (by simp)

/-- C5 as stated fails on the code: the response handler stores
`data.conversation_id` (part_004 lines 126-128) without re-checking the
selected repository, so in the racing trace the request logged at index 2
names `octo/beta` and carries conversation id `"c-A"`, although `"c-A"`
was issued only by the `octo/alpha` response — no response for
`octo/beta` ever issued it. -/
theorem conversationId_crosses_repositories :
    ChatLogEntry.issued "octo/alpha" "c-A" ∈ (asyncUiRun raceEvents).2 ∧
    (asyncUiRun raceEvents).2.get ⟨2, by decide⟩ =
      .requested "octo/beta" (some "c-A") ∧
    (∀ e ∈ (asyncUiRun raceEvents).2, e ≠ .issued "octo/beta" "c-A") := by
  decide

/-- C5 (amended): every chat request sent with a non-null conversation id
names the same repository as the response that issued that id, provided
each response is processed while the repository its request named is
still the selected one; without that proviso the invariant fails, because
the response handler stores `data.conversation_id` without re-checking
the selected repository, so a repository switch while a request is in
flight can attach an id issued for one repository to a request for
another. -/
theorem conversationId_repo_consistent_serialized (events : List AsyncUiEvent)
    (hsafe : safeRun initialAsyncUiState events = true)
    (i : Nat) (hi : i < (asyncUiRun events).2.length) (r cid : String)
    (hreq : (asyncUiRun events).2.get ⟨i, hi⟩ = .requested r (some cid)) :
    ChatLogEntry.issued r cid ∈ (asyncUiRun events).2.take i := by
  have h := asyncUiRunFrom_consistent events initialAsyncUiState [] hsafe
    initialAsync_consistent
  simp only [List.nil_append] at h
  exact h.2 ⟨i, hi⟩ r cid hreq

/-- Witness for the serialized consistency theorem on a concrete
four-event trace whose follow-up request carries the id issued by the
first response. -/
theorem conversationId_repo_consistent_serialized_witness :
    safeRun initialAsyncUiState safeDemoEvents = true ∧
    ChatLogEntry.issued "octo/demo" "c1" ∈ (asyncUiRun safeDemoEvents).2.take 2 :=
  ⟨by decide,
   conversationId_repo_consistent_serialized safeDemoEvents (by decide) 2 (by decide)
     "octo/demo" "c1" (by decide)⟩


lemma ConvStore.append_nextId (store : ConvStore) (cid : Nat) (msg : Role × String) :
    (store.append cid msg).nextId = store.nextId := rfl

lemma ConvStore.mem_append_ids (store : ConvStore) (cid : Nat) (msg : Role × String) :
    ∀ c ∈ (store.append cid msg).convs, ∃ c2 ∈ store.convs, c.id = c2.id := by
  intro c hc
  simp only [ConvStore.append, List.mem_map] at hc
  obtain ⟨c2, hc2, rfl⟩ := hc
  refine ⟨c2, hc2, ?_⟩
  split_ifs <;> rfl

lemma ConvStore.get_mem {store : ConvStore} {cid : Nat} {c : Conversation}
    (h : store.get cid = some c) : c ∈ store.convs ∧ c.id = cid := by
  simp only [ConvStore.get] at h
  refine ⟨List.mem_of_find?_eq_some h, ?_⟩
  have h2 := List.find?_some h
  simpa using h2

lemma resolveConversation_freshness (store : ConvStore) (repo : String)
    (ocid : Option Nat)
    (hstore : ∀ c ∈ store.convs, c.id < store.nextId) :
    (∀ c ∈ (resolveConversation store repo ocid).1.convs,
        c.id < (resolveConversation store repo ocid).1.nextId) ∧
    store.nextId ≤ (resolveConversation store repo ocid).1.nextId ∧
    (resolveConversation store repo ocid).2 <
      (resolveConversation store repo ocid).1.nextId ∧
    (ocid = none → store.nextId ≤ (resolveConversation store repo ocid).2) := by
  have hcreate : ∀ c ∈ (store.create repo).1.convs,
      c.id < (store.create repo).1.nextId := by
    intro c hc
    simp only [ConvStore.create, List.mem_append, List.mem_singleton] at hc
    rcases hc with hc | rfl
    · exact Nat.lt_succ_of_lt (hstore c hc)
    · exact Nat.lt_succ_self _
  cases ocid with
  | none =>
      simp only [resolveConversation]
      exact ⟨hcreate, Nat.le_succ _, Nat.lt_succ_self _, fun _ => le_refl _⟩
  | some cid =>
      simp only [resolveConversation]
      cases hget : store.get cid with
      | some conv =>
          refine ⟨hstore, le_refl _, ?_, fun h => by cases h⟩
          obtain ⟨hm, hid⟩ := ConvStore.get_mem hget
          exact hid ▸ hstore conv hm
      | none =>
          exact ⟨hcreate, Nat.le_succ _, Nat.lt_succ_self _, fun h => by cases h⟩

lemma chatOrchestrate_freshness (store : ConvStore) (input : ChatInput)
    (hstore : ∀ c ∈ store.convs, c.id < store.nextId) :
    (∀ c ∈ (chatOrchestrate store input).1.convs,
        c.id < (chatOrchestrate store input).1.nextId) ∧
    store.nextId ≤ (chatOrchestrate store input).1.nextId ∧
    (∀ r, (chatOrchestrate store input).2 = .ok r →
        r.2 < (chatOrchestrate store input).1.nextId) ∧
    (input.conversationId = none →
      ∀ r, (chatOrchestrate store input).2 = .ok r → store.nextId ≤ r.2) := by
  obtain ⟨q, repo, ocid, agent⟩ := input
  by_cases hq : q = ""
  · simp only [chatOrchestrate, if_pos hq]
    refine ⟨hstore, le_refl _, fun r h => ?_, fun _ r h => ?_⟩ <;> cases h
  · obtain ⟨ha, hb, hc, hd⟩ := resolveConversation_freshness store repo ocid hstore
    simp only [chatOrchestrate, if_neg hq]
    cases agent with
    | some answer =>
        simp only
        refine ⟨?_, ?_, fun r hr => ?_, fun hnone r hr => ?_⟩
        · intro c hcm
          obtain ⟨c2, hc2, hid⟩ := ConvStore.mem_append_ids _ _ _ c hcm
          obtain ⟨c3, hc3, hid2⟩ := ConvStore.mem_append_ids _ _ _ c2 hc2
          rw [ConvStore.append_nextId, ConvStore.append_nextId, hid, hid2]
          exact ha c3 hc3
        · rw [ConvStore.append_nextId, ConvStore.append_nextId]
          exact hb
        · cases hr
          rw [ConvStore.append_nextId, ConvStore.append_nextId]
          exact hc
        · cases hr
          exact hd hnone
    | none =>
        simp only
        refine ⟨?_, ?_, fun r hr => ?_, fun hnone r hr => ?_⟩
        · intro c hcm
          obtain ⟨c2, hc2, hid⟩ := ConvStore.mem_append_ids _ _ _ c hcm
          rw [ConvStore.append_nextId, hid]
          exact ha c2 hc2
        · rw [ConvStore.append_nextId]
          exact hb
        · cases hr
        · cases hr


lemma runChatCalls_cons (store : ConvStore) (x : ChatInput) (xs : List ChatInput) :
    runChatCalls store (x :: xs) =
      ((runChatCalls (chatOrchestrate store x).1 xs).1,
       (match (chatOrchestrate store x).2 with
        | .ok r => some r.2
        | .error _ => none) :: (runChatCalls (chatOrchestrate store x).1 xs).2) := rfl

lemma runChatCalls_append (store : ConvStore) (xs ys : List ChatInput) :
    runChatCalls store (xs ++ ys) =
      ((runChatCalls (runChatCalls store xs).1 ys).1,
       (runChatCalls store xs).2 ++ (runChatCalls (runChatCalls store xs).1 ys).2) := by
  induction xs generalizing store with
  | nil => simp [runChatCalls]
  | cons x xs ih =>
      simp only [List.cons_append, runChatCalls_cons, ih, List.nil_append]

lemma runChatCalls_bounds (inputs : List ChatInput) (store : ConvStore)
    (hstore : ∀ c ∈ store.convs, c.id < store.nextId) :
    (∀ c ∈ (runChatCalls store inputs).1.convs,
        c.id < (runChatCalls store inputs).1.nextId) ∧
    store.nextId ≤ (runChatCalls store inputs).1.nextId ∧
    (∀ a : Nat, some a ∈ (runChatCalls store inputs).2 →
        a < (runChatCalls store inputs).1.nextId) := by
  induction inputs generalizing store with
  | nil =>
      refine ⟨hstore, le_refl _, fun a ha => ?_⟩
      simp [runChatCalls] at ha
  | cons x xs ih =>
      obtain ⟨ha, hb, hc, _⟩ := chatOrchestrate_freshness store x hstore
      obtain ⟨iha, ihb, ihc⟩ := ih (chatOrchestrate store x).1 ha
      rw [runChatCalls_cons]
      refine ⟨iha, le_trans hb ihb, fun a hmem => ?_⟩
      simp only [List.mem_cons] at hmem
      rcases hmem with hmem | hmem
      · cases hstep : (chatOrchestrate store x).2 with
        | ok r =>
            rw [hstep] at hmem
            simp only at hmem
            have : a = r.2 := Option.some.inj hmem
            subst this
            exact lt_of_lt_of_le (hc r hstep) ihb
        | error err =>
            rw [hstep] at hmem
            cases hmem
      · exact ihc a hmem

/-- C6 (modelled from the spec): a chat call made with no conversation id
returns — when it succeeds — a conversation id distinct from every id any
earlier call returned, because the Conversation Store's `create` issues a
strictly fresh id. -/
theorem chat_fresh_conversation_ids (pre : List ChatInput) (x : ChatInput)
    (hx : x.conversationId = none) (b : Nat)
    (hb : (runChatCalls ConvStore.initial (pre ++ [x])).2.getLast? = some (some b)) :
    ∀ a : Nat, some a ∈ (runChatCalls ConvStore.initial pre).2 → a ≠ b := by
  intro a ha
  have hinit : ∀ c ∈ ConvStore.initial.convs, c.id < ConvStore.initial.nextId := by
    intro c hc
    simp [ConvStore.initial] at hc
  obtain ⟨hstore1, hle1, houts1⟩ := runChatCalls_bounds pre ConvStore.initial hinit
  rw [runChatCalls_append] at hb
  set s1 := (runChatCalls ConvStore.initial pre).1 with hs1
  have hlast : (runChatCalls s1 [x]).2 =
      [match (chatOrchestrate s1 x).2 with
       | .ok r => some r.2
       | .error _ => none] := rfl
  rw [hlast] at hb
  rw [List.getLast?_concat] at hb
  cases hstep : (chatOrchestrate s1 x).2 with
  | ok r =>
      rw [hstep] at hb
      simp only [Option.some.injEq] at hb
      obtain ⟨-, -, -, hd⟩ := chatOrchestrate_freshness s1 x hstore1
      have hbge : s1.nextId ≤ r.2 := hd hx r hstep
      have halt : a < s1.nextId := houts1 a ha
      omega
  | error err =>
      rw [hstep] at hb
      cases hb

/-- Witness for id freshness: two consecutive no-id calls return ids 0 and
then 1. -/
theorem chat_fresh_conversation_ids_witness :
    demoChatX.conversationId = none ∧
    (runChatCalls ConvStore.initial (demoChatPre ++ [demoChatX])).2.getLast? =
      some (some 1) ∧
    some 0 ∈ (runChatCalls ConvStore.initial demoChatPre).2 ∧
    (0 : Nat) ≠ 1 :=
  ⟨rfl, by decide, by decide,
   chat_fresh_conversation_ids demoChatPre demoChatX rfl 1 (by decide) 0 (by decide)⟩

end Summit
